import Mathlib

/-!
Shallow embedding of the fjage-sentuator logging facility
(src/src/main/c/logging.c, src/src/main/c/logging.h) and proofs about it.

Modelling choices:
- The rotation engine operates on numbered log files.  Within one call to
  rotate_logs the pattern (stem ++ "-%d." ++ ext) names a distinct file per
  index, so the file system visible to rotation is modelled as a map from
  the rotation index to the optional content of the file at that index.
- POSIX rename(old, new): when the source exists the destination is
  replaced by the source's content and the source slot becomes empty; when
  the source does not exist the call fails and changes nothing.  The C code
  ignores rename's return value, so a failed rename is a no-op.
- Machine ints are modelled as Int; byte values as Nat below 256.
- The global mutable logging state (level, the stderr stream) is passed
  explicitly.  The stream is modelled as an optional attachment to a sink
  identifier plus, per sink, the list of lines written to it.  Writing
  while no sink is attached (closed stream) records nothing.
- The wall clock (current_time_ms) is injected as a parameter `now`.
- Memory allocation (MALLOC/CALLOC) is modelled as always succeeding.
-/

/-! Log level constants from logging.h. -/

def LOG_NONE : Int := 0
def LOG_ERRORS : Int := 1
def LOG_WARNINGS : Int := 2
def LOG_INFO : Int := 3
def LOG_DEBUG : Int := 4
def LOG_ALL : Int := 5

/-! Rotation engine (rotate_logs in logging.c). -/

/-- POSIX rename of the file at index `src` onto index `dst`: if the source
exists it replaces whatever was at `dst` and the source slot becomes empty;
if the source is missing the rename fails and nothing changes (the C code
ignores the return value of rename). -/
def renameFile (src dst : Nat) (fs : Nat → Option α) : Nat → Option α :=
  fun j =>
    if (fs src).isSome then
      if j = dst then fs src else if j = src then none else fs j
    else fs j

/-- The loop body of rotate_logs: for i = n down to 0, rename index i to
index i + 1 (the rename at the highest index happens first). -/
def rotateDown : Nat → (Nat → Option α) → (Nat → Option α)
  | 0, fs => renameFile 0 1 fs
  | n + 1, fs => rotateDown n (renameFile (n + 1) (n + 2) fs)

/-- rotate_logs(pattern, maxfiles) from logging.c: runs the loop
`for (int i = maxfiles-1; i >= 0; i--) rename(file i, file (i+1))`.
When maxfiles <= 0 the loop body never executes.  The buffer allocation is
modelled as succeeding, hence the C return value 0 is not modelled. -/
def rotate_logs (maxfiles : Int) (fs : Nat → Option α) : Nat → Option α :=
  if 1 ≤ maxfiles then rotateDown (maxfiles - 1).toNat fs else fs

/-- A file system with a single file of content `c` at index `i`. -/
def fsSingle (i : Nat) (c : Nat) : Nat → Option Nat :=
  fun j => if j = i then some c else none

/-! Explicit rename sequences, used to state the order of renames. -/

/-- The list of (source, destination) index pairs of the renames performed
by the rotate_logs loop with top source index n, in execution order:
(n, n+1), (n-1, n), ..., (0, 1). -/
def seqDown : Nat → List (Nat × Nat)
  | 0 => [(0, 1)]
  | n + 1 => (n + 1, n + 2) :: seqDown n

/-- Apply a list of renames to a file system in list order. -/
def applyRenames (l : List (Nat × Nat)) (fs : Nat → Option α) : Nat → Option α :=
  l.foldl (fun s p => renameFile p.1 p.2 s) fs

theorem renameFile_of_missing (src dst : Nat) (fs : Nat → Option α)
    (h : fs src = none) : renameFile src dst fs = fs := by
  funext j
  simp [renameFile, h]

theorem rotateDown_eq_applyRenames (n : Nat) (fs : Nat → Option α) :
    rotateDown n fs = applyRenames (seqDown n) fs := by
  induction n generalizing fs with
  | zero => rfl
  | succ k ih => simp [rotateDown, seqDown, applyRenames, ih, List.foldl_cons]

theorem seqDown_fst_desc (n : Nat) :
    (seqDown n).map Prod.fst = (List.range (n + 1)).reverse := by
  induction n with
  | zero => rfl
  | succ k ih =>
    simp [seqDown, List.range_succ, ih]

theorem seqDown_snd (n : Nat) : ∀ p ∈ seqDown n, p.2 = p.1 + 1 := by
  induction n with
  | zero => intro p hp; simp [seqDown] at hp; simp [hp]
  | succ k ih =>
    intro p hp
    simp [seqDown] at hp
    rcases hp with h | h
    · simp [h]
    · exact ih p h

/-- Full characterization of one pass of the rotate_logs loop with top
source index n (that is, maxfiles = n + 1):
slots 1..n receive the previous content of the slot below; the top
destination slot n+1 receives the old slot-n file when one was present and
otherwise keeps its own old content; slot 0 ends empty; slots beyond n+1
are untouched. -/
theorem rotateDown_spec (n : Nat) (fs : Nat → Option α) :
    (∀ j, 1 ≤ j → j ≤ n → rotateDown n fs j = fs (j - 1)) ∧
    (rotateDown n fs (n + 1) = if (fs n).isSome then fs n else fs (n + 1)) ∧
    (rotateDown n fs 0 = none) ∧
    (∀ j, n + 2 ≤ j → rotateDown n fs j = fs j) := by
  induction n generalizing fs with
  | zero =>
    refine ⟨?_, ?_, ?_, ?_⟩
    · intro j h1 h2; omega
    · by_cases h : (fs 0).isSome <;> simp [rotateDown, renameFile, h]
    · by_cases h : (fs 0).isSome
      · simp [rotateDown, renameFile, h]
      · simp only [Option.isSome] at h
        cases heq : fs 0 with
        | none => simp [rotateDown, renameFile, heq]
        | some c => rw [heq] at h; simp at h
    · intro j hj
      have h1 : ¬ (j = 1) := by omega
      have h0 : ¬ (j = 0) := by omega
      by_cases h : (fs 0).isSome <;> simp [rotateDown, renameFile, h, h1, h0]
  | succ k ih =>
    have step : rotateDown (k + 1) fs =
        rotateDown k (renameFile (k + 1) (k + 2) fs) := rfl
    set fs' := renameFile (k + 1) (k + 2) fs with hfs'
    obtain ⟨ihA, ihB, ihC, ihD⟩ := ih fs'
    have low : ∀ j, j ≤ k → fs' j = fs j := by
      intro j hj
      have h1 : ¬ (j = k + 2) := by omega
      have h2 : ¬ (j = k + 1) := by omega
      by_cases h : (fs (k + 1)).isSome <;> simp [hfs', renameFile, h, h1, h2]
    have top : fs' (k + 2) = if (fs (k + 1)).isSome then fs (k + 1) else fs (k + 2) := by
      by_cases h : (fs (k + 1)).isSome <;> simp [hfs', renameFile, h]
    have mid : fs' (k + 1) = if (fs (k + 1)).isSome then none else fs (k + 1) := by
      by_cases h : (fs (k + 1)).isSome <;> simp [hfs', renameFile, h]
    have high : ∀ j, k + 3 ≤ j → fs' j = fs j := by
      intro j hj
      have h1 : ¬ (j = k + 2) := by omega
      have h2 : ¬ (j = k + 1) := by omega
      by_cases h : (fs (k + 1)).isSome <;> simp [hfs', renameFile, h, h1, h2]
    refine ⟨?_, ?_, ?_, ?_⟩
    · intro j h1 h2
      rw [step]
      by_cases hjk : j ≤ k
      · rw [ihA j h1 hjk, low (j - 1) (by omega)]
      · have hj : j = k + 1 := by omega
        subst hj
        rw [ihB]
        have hk : fs' k = fs k := low k (le_refl k)
        by_cases h : (fs' k).isSome
        · rw [if_pos h, hk]; simp
        · rw [if_neg h, mid]
          have hfk : fs k = none := by
            rw [← hk]; exact Option.not_isSome_iff_eq_none.mp h
          simp only [Nat.add_sub_cancel, hfk]
          by_cases hh : (fs (k + 1)).isSome
          · simp [hh]
          · rw [if_neg hh]
            exact Option.not_isSome_iff_eq_none.mp hh
    · rw [step, ihD (k + 2) (by omega), top]
    · rw [step, ihC]
    · intro j hj
      rw [step, ihD j (by omega), high j hj]

/-! Global log state and the stream model. -/

/-- One formatted log line, as written by the emitters: the fields of
`<timestamp_ms>|<SEVERITY>|<module>:<line>|<message>`. -/
structure LogLine where
  timestamp : Nat
  severity : String
  moduleName : List Char
  lineNo : Int
  message : String
deriving DecidableEq

/-- The process-wide logging state of logging.c: the level threshold and
the stderr stream.  `attached` is the sink the stream is currently
associated with (none after a close or a failed freopen); `sinkLines` is
the list of lines that reached each sink. -/
structure LogState where
  level : Int
  attached : Option Nat
  sinkLines : Nat → List LogLine

/-- An fprintf of one full line to stderr: the line reaches the attached
sink; with no sink attached (closed stream) the output is lost. -/
def writeLine (st : LogState) (entry : LogLine) : LogState :=
  match st.attached with
  | some f =>
      { st with sinkLines := fun g =>
          if g = f then st.sinkLines f ++ [entry] else st.sinkLines g }
  | none => st

/-- strrchr(module, '/') plus one: the final path component of the module
path (the whole path when it has no slash). -/
def afterLastSlash (mpath : List Char) : List Char :=
  mpath.foldl (fun acc c => if c = '/' then [] else acc ++ [c]) []

/-- Result of one emitter call: the updated state, whether the emitter
performed its fprintf to the stream, the value returned to the caller
(none for the void emitters), and the process exit status when the call
terminates the process. -/
structure EmitResult where
  st : LogState
  wrote : Bool
  ret : Option Int
  exitCode : Option Int

/-! The five leveled emitters from logging.c.  The clock value `now` is
injected; the pthread mutex only serializes the write and is invisible to
these sequential state functions. -/

/-- log_die: writes an ABORT line when level > LOG_NONE, then always calls
exit(1).  Declared void; never returns to the caller. -/
def log_die (mpath : List Char) (lineNo : Int) (msg : String) (now : Nat)
    (st : LogState) : EmitResult :=
  if LOG_NONE < st.level then
    { st := writeLine st
        { timestamp := now, severity := "ABORT",
          moduleName := afterLastSlash mpath, lineNo := lineNo, message := msg },
      wrote := true, ret := none, exitCode := some 1 }
  else
    { st := st, wrote := false, ret := none, exitCode := some 1 }

/-- log_error: writes an ERROR line when level >= LOG_ERRORS; always
returns -1. -/
def log_error (mpath : List Char) (lineNo : Int) (msg : String) (now : Nat)
    (st : LogState) : EmitResult :=
  if LOG_ERRORS ≤ st.level then
    { st := writeLine st
        { timestamp := now, severity := "ERROR",
          moduleName := afterLastSlash mpath, lineNo := lineNo, message := msg },
      wrote := true, ret := some (-1), exitCode := none }
  else
    { st := st, wrote := false, ret := some (-1), exitCode := none }

/-- log_warning: writes a WARNING line when level >= LOG_WARNINGS; always
returns -1. -/
def log_warning (mpath : List Char) (lineNo : Int) (msg : String) (now : Nat)
    (st : LogState) : EmitResult :=
  if LOG_WARNINGS ≤ st.level then
    { st := writeLine st
        { timestamp := now, severity := "WARNING",
          moduleName := afterLastSlash mpath, lineNo := lineNo, message := msg },
      wrote := true, ret := some (-1), exitCode := none }
  else
    { st := st, wrote := false, ret := some (-1), exitCode := none }

/-- log_info: writes an INFO line when level >= LOG_INFO; declared void,
returns no value. -/
def log_info (mpath : List Char) (lineNo : Int) (msg : String) (now : Nat)
    (st : LogState) : EmitResult :=
  if LOG_INFO ≤ st.level then
    { st := writeLine st
        { timestamp := now, severity := "INFO",
          moduleName := afterLastSlash mpath, lineNo := lineNo, message := msg },
      wrote := true, ret := none, exitCode := none }
  else
    { st := st, wrote := false, ret := none, exitCode := none }

/-- log_debug: writes a DEBUG line when level >= LOG_DEBUG; declared void,
returns no value. -/
def log_debug (mpath : List Char) (lineNo : Int) (msg : String) (now : Nat)
    (st : LogState) : EmitResult :=
  if LOG_DEBUG ≤ st.level then
    { st := writeLine st
        { timestamp := now, severity := "DEBUG",
          moduleName := afterLastSlash mpath, lineNo := lineNo, message := msg },
      wrote := true, ret := none, exitCode := none }
  else
    { st := st, wrote := false, ret := none, exitCode := none }

/-- log_level(lvl): sets the threshold when LOG_NONE <= lvl <= LOG_ALL,
otherwise leaves it unchanged; returns the resulting level.  The first
component is the updated state, the second the returned value. -/
def log_level (lvl : Int) (st : LogState) : LogState × Int :=
  let st' := if LOG_NONE ≤ lvl ∧ lvl ≤ LOG_ALL then { st with level := lvl } else st
  (st', st'.level)

/-- log_close: fclose(stderr) and return 0.  The result of fclose
(`closeOk`) is ignored by the C code. -/
def log_close (_closeOk : Bool) (st : LogState) : LogState × Int :=
  ({ st with attached := none }, 0)

/-! log_open and the "-0." marker (strstr in logging.c). -/

/-- The literal marker substring "-0." searched for by log_open. -/
def marker : List Char := ['-', '0', '.']

/-- strstr(filename, "-0.") followed by the pattern construction: returns
the part of the filename before the first occurrence of the marker and the
part after it (the extension copied by strcat(pattern, p+3)), or none when
the marker does not occur. -/
def strstrSplit : List Char → Option (List Char × List Char)
  | [] => none
  | c :: rest =>
    if List.isPrefixOf marker (c :: rest) then some ([], (c :: rest).drop 3)
    else
      match strstrSplit rest with
      | some (pre, post) => some (c :: pre, post)
      | none => none

/-- Result of log_open: the numbered files of the rotation pattern after
the call, the updated log state, whether rotate_logs was invoked, and the
returned int. -/
structure OpenOutcome (α : Type) where
  files : Nat → Option α
  st : LogState
  rotated : Bool
  ret : Int

/-- freopen(filename, "a", stderr) per C11 7.21.5.4: the function first
attempts to close any file associated with the stream, then tries to open
the new file; on success the stream is associated with the new file (sink
`fid`), on failure it is left associated with no file. -/
def freopenStderr (fid : Nat) (openOk : Bool) (st : LogState) : LogState :=
  if openOk then { st with attached := some fid } else { st with attached := none }

/-- The module path and line of the warning("Cannot open log file") call
site inside log_open (logging.c line 54). -/
def loggingModule : List Char := "logging.c".toList

/-- log_open(filename, maxfiles) from logging.c: when maxfiles > 1 and the
filename contains the "-0." marker, builds the "-%d." pattern and calls
rotate_logs on the numbered files `files` of that pattern; then reopens
stderr onto the file (sink `fid`, success `openOk`); on open failure
returns the result of warning("Cannot open log file"), namely -1.
CALLOC is modelled as succeeding. -/
def log_open (filename : List Char) (maxfiles : Int) (files : Nat → Option α)
    (fid : Nat) (openOk : Bool) (now : Nat) (st : LogState) : OpenOutcome α :=
  let rot :=
    if 1 < maxfiles then
      match strstrSplit filename with
      | some _ => (rotate_logs maxfiles files, true)
      | none => (files, false)
    else (files, false)
  let st1 := freopenStderr fid openOk st
  if openOk then
    { files := rot.1, st := st1, rotated := rot.2, ret := 0 }
  else
    let w := log_warning loggingModule 54 "Cannot open log file" now st1
    { files := rot.1, st := w.st, rotated := rot.2, ret := -1 }

/-! bits2str (hex encoding) from logging.c. -/

/-- One digit of the %02x conversion: 0..9 map to '0'..'9' and 10..15 to
lowercase 'a'..'f'. -/
def hexDigit (n : Nat) : Char :=
  if n < 10 then Char.ofNat ('0'.toNat + n) else Char.ofNat ('a'.toNat + (n - 10))

/-- sprintf(str + 2*i, "%02x", data[i]) for one byte below 256: exactly two
lowercase hex characters, high nibble first. -/
def byteHex (b : Nat) : List Char := [hexDigit (b / 16), hexDigit (b % 16)]

/-- bits2str(data, len, str): writes the two-character hex code of each
byte consecutively into the result (the C writes into str at offset 2*i
and returns str; allocation of the NULL-str case is modelled as
succeeding). -/
def bits2str (data : List Nat) : List Char :=
  (data.map byteHex).flatten

/-- The sixteen characters %02x can produce. -/
def hexAlphabet : List Char := "0123456789abcdef".toList

/-! Lemmas connecting strstr to substring containment. -/

theorem isPrefixOf_iff_exists_append (p : List Char) :
    ∀ l, List.isPrefixOf p l = true ↔ ∃ r, l = p ++ r := by
  induction p with
  | nil =>
    intro l
    simp [List.isPrefixOf]
  | cons a p' ih =>
    intro l
    cases l with
    | nil => simp [List.isPrefixOf]
    | cons b l' =>
      simp only [List.isPrefixOf, Bool.and_eq_true, beq_iff_eq, ih l',
        List.cons_append, List.cons.injEq]
      constructor
      · rintro ⟨hab, r, hr⟩
        exact ⟨r, hab.symm, hr⟩
      · rintro ⟨r, hba, hr⟩
        exact ⟨hba.symm, r, hr⟩

theorem strstrSplit_isSome_iff (s : List Char) :
    (strstrSplit s).isSome = true ↔ ∃ l r, s = l ++ marker ++ r := by
  induction s with
  | nil =>
    simp only [strstrSplit, Option.isSome_none, Bool.false_eq_true, false_iff]
    rintro ⟨l, r, h⟩
    have := congrArg List.length h
    simp [marker] at this
    omega
  | cons c rest ih =>
    by_cases h : List.isPrefixOf marker (c :: rest) = true
    · obtain ⟨r, hr⟩ := (isPrefixOf_iff_exists_append marker (c :: rest)).mp h
      constructor
      · intro _
        exact ⟨[], r, by simpa using hr⟩
      · intro _
        simp [strstrSplit, h]
    · have hmatch : (strstrSplit (c :: rest)).isSome = (strstrSplit rest).isSome := by
        simp only [strstrSplit, h, if_false, Bool.false_eq_true]
        cases hs : strstrSplit rest with
        | none => simp
        | some pr => cases pr; simp
      rw [hmatch, ih]
      constructor
      · rintro ⟨l, r, hlr⟩
        exact ⟨c :: l, r, by simp [hlr]⟩
      · rintro ⟨l, r, hlr⟩
        cases l with
        | nil =>
          exact absurd ((isPrefixOf_iff_exists_append marker (c :: rest)).mpr
            ⟨r, by simpa using hlr⟩) h
        | cons c' l' =>
          have hh : c' = c ∧ rest = l' ++ marker ++ r := by
            have := hlr
            simp only [List.cons_append, List.cons.injEq, List.append_assoc] at this ⊢
            exact ⟨this.1.symm, by simpa using this.2⟩
          exact ⟨l', r, hh.2⟩

/-! Concrete states and inputs used in closed evaluations. -/

/-- A file system with no files at all. -/
def emptyFS : Nat → Option Nat := fun _ => none

/-- A log state with threshold LOG_NONE, attached to sink 0, nothing
written yet. -/
def stNone : LogState :=
  { level := LOG_NONE, attached := some 0, sinkLines := fun _ => [] }

/-- A log state with threshold LOG_INFO, attached to sink 7, nothing
written yet. -/
def st7 : LogState :=
  { level := LOG_INFO, attached := some 7, sinkLines := fun _ => [] }

/-- A filename that follows the "-0." marker convention. -/
def fnameMarker : List Char := "log-0.txt".toList

/-- A filename without the "-0." marker. -/
def fnamePlain : List Char := "log.txt".toList

/-! Helper lemmas for bits2str. -/

theorem bits2str_cons (b : Nat) (rest : List Nat) :
    bits2str (b :: rest) = byteHex b ++ bits2str rest := rfl

theorem bits2str_length (data : List Nat) :
    (bits2str data).length = 2 * data.length := by
  induction data with
  | nil => rfl
  | cons b rest ih =>
    rw [bits2str_cons, List.length_append, ih]
    simp [byteHex]
    omega

theorem bits2str_get (data : List Nat) :
    ∀ i (h : i < data.length),
      (bits2str data)[2 * i]? = some (hexDigit (data.get ⟨i, h⟩ / 16)) ∧
      (bits2str data)[2 * i + 1]? = some (hexDigit (data.get ⟨i, h⟩ % 16)) := by
  induction data with
  | nil => intro i h; simp at h
  | cons b rest ih =>
    intro i h
    cases i with
    | zero =>
      constructor <;> simp [bits2str_cons, byteHex]
    | succ i' =>
      have h' : i' < rest.length := by simpa using h
      obtain ⟨ih1, ih2⟩ := ih i' h'
      have hlen : (byteHex b).length = 2 := rfl
      constructor
      · rw [bits2str_cons, List.getElem?_append_right (by rw [hlen]; omega)]
        rw [hlen, show 2 * (i' + 1) - 2 = 2 * i' from by omega]
        exact ih1
      · rw [bits2str_cons, List.getElem?_append_right (by rw [hlen]; omega)]
        rw [hlen, show 2 * (i' + 1) + 1 - 2 = 2 * i' + 1 from by omega]
        exact ih2

theorem hexDigit_mem_alphabet (n : Nat) (h : n < 16) : hexDigit n ∈ hexAlphabet := by
  interval_cases n <;> decide

theorem bits2str_mem (data : List Nat) (hdata : ∀ b ∈ data, b < 256) :
    ∀ c ∈ bits2str data, c ∈ hexAlphabet := by
  intro c hc
  simp only [bits2str, List.mem_flatten, List.mem_map] at hc
  obtain ⟨s, ⟨b, hb, hs⟩, hcs⟩ := hc
  subst hs
  simp only [byteHex, List.mem_cons, List.mem_singleton] at hcs
  have hb256 := hdata b hb
  rcases hcs with h1 | h1 | h1
  · subst h1
    exact hexDigit_mem_alphabet _ (Nat.div_lt_of_lt_mul (by omega))
  · subst h1
    exact hexDigit_mem_alphabet _ (Nat.mod_lt _ (by omega))
  · simp at h1

/-! Bridge between the Int-typed maxfiles argument and the loop shape. -/

theorem rotate_logs_natCast (m : Nat) (hm : 1 ≤ m) (fs : Nat → Option α) :
    rotate_logs (m : Int) fs = rotateDown (m - 1) fs := by
  unfold rotate_logs
  rw [if_pos (by exact_mod_cast hm)]
  have : ((m : Int) - 1).toNat = m - 1 := by omega
  rw [this]

/-! Claim C1. -/

/-- C1 (counterexample): the claim says one rotation overwrites and loses
the file previously at index max_files - 1 and leaves no rotated file at
any index >= max_files, and that with max_files = 4 a single original
file is discarded by the fourth rotation.  The code instead renames index
max_files - 1 to index max_files: with max_files = 2 and a single file at
index 1 the rotation leaves that file at index 2, and with max_files = 4 a
single file starting at index 0 sits at index 4 after four rotations
instead of being discarded. -/
theorem C1_counterexample :
    rotate_logs 2 (fsSingle 1 42) 2 = some 42 ∧
    rotate_logs 4 (rotate_logs 4 (rotate_logs 4 (rotate_logs 4 (fsSingle 0 7)))) 4
      = some 7 := by
  constructor <;> rfl

/-- C1 (amended): one call to rotate_logs with max_files >= 2 moves the
file previously at each index k with 0 <= k <= max_files - 2 to index
k + 1; the file previously at index max_files - 1 is not lost but moved to
index max_files (overwriting what was there when index max_files - 1 was
occupied, and leaving slot max_files untouched otherwise); indexes
max_files + 1 and beyond are untouched, so one rotated file can end up at
index max_files, one past the retention range. -/
theorem C1_theorem {α : Type} (m : Nat) (hm : 2 ≤ m) (fs : Nat → Option α) :
    (∀ k, k + 2 ≤ m → rotate_logs (m : Int) fs (k + 1) = fs k) ∧
    (rotate_logs (m : Int) fs m =
      if (fs (m - 1)).isSome then fs (m - 1) else fs m) ∧
    (∀ j, m + 1 ≤ j → rotate_logs (m : Int) fs j = fs j) := by
  have h1 : 1 ≤ m := by omega
  rw [rotate_logs_natCast m h1]
  obtain ⟨hA, hB, hC, hD⟩ := rotateDown_spec (m - 1) fs
  refine ⟨?_, ?_, ?_⟩
  · intro k hk
    have := hA (k + 1) (by omega) (by omega)
    simpa using this
  · have hm1 : m - 1 + 1 = m := by omega
    rw [hm1] at hB
    exact hB
  · intro j hj
    exact hD j (by omega)

/-- C1 (witness): the amended theorem instantiated at max_files = 3 with a
single file at index 0. -/
theorem C1_witness :
    rotate_logs ((3 : Nat) : Int) (fsSingle 0 5) 1 = fsSingle 0 5 0 ∧
    rotate_logs ((3 : Nat) : Int) (fsSingle 0 5) 4 = fsSingle 0 5 4 := by
  have h := C1_theorem 3 (by decide) (fsSingle 0 5)
  exact ⟨h.1 0 (by decide), h.2.2 4 (by decide)⟩

/-! Claim C2. -/

/-- C2: rotate_logs performs exactly the renames of seqDown (max_files - 1)
in list order, whose source indexes are max_files - 1 down to 0 (the
reverse of range) and whose destination is always source + 1; a rename
whose source file does not exist leaves the file system unchanged; and
after the full pass no file remains at index 0. -/
theorem C2_theorem {α : Type} :
    (∀ (m : Nat), 1 ≤ m → ∀ fs : Nat → Option α,
      rotate_logs (m : Int) fs = applyRenames (seqDown (m - 1)) fs) ∧
    (∀ n : Nat, (seqDown n).map Prod.fst = (List.range (n + 1)).reverse) ∧
    (∀ n : Nat, ∀ p ∈ seqDown n, p.2 = p.1 + 1) ∧
    (∀ (src dst : Nat) (fs : Nat → Option α), fs src = none →
      renameFile src dst fs = fs) ∧
    (∀ (m : Nat), 1 ≤ m → ∀ fs : Nat → Option α,
      rotate_logs (m : Int) fs 0 = none) := by
  refine ⟨?_, seqDown_fst_desc, seqDown_snd, renameFile_of_missing, ?_⟩
  · intro m hm fs
    rw [rotate_logs_natCast m hm]
    exact rotateDown_eq_applyRenames (m - 1) fs
  · intro m hm fs
    rw [rotate_logs_natCast m hm]
    exact (rotateDown_spec (m - 1) fs).2.2.1

/-- C2 (witness): the theorem instantiated at max_files = 2 with a single
file at index 0, and a rename with a missing source at index 3. -/
theorem C2_witness :
    rotate_logs ((2 : Nat) : Int) (fsSingle 0 5) =
      applyRenames (seqDown 1) (fsSingle 0 5) ∧
    rotate_logs ((2 : Nat) : Int) (fsSingle 0 5) 0 = none ∧
    renameFile 3 4 (fsSingle 0 5) = fsSingle 0 5 := by
  exact ⟨C2_theorem.1 2 (by decide) (fsSingle 0 5),
    C2_theorem.2.2.2.2 2 (by decide) (fsSingle 0 5),
    C2_theorem.2.2.2.1 3 4 (fsSingle 0 5) (by decide)⟩

/-! Claim C3. -/

/-- C3: each emitter writes its log line to the stream iff the current
threshold is at least the emitter's minimum level (error needs LOG_ERRORS,
warning LOG_WARNINGS, info LOG_INFO, debug LOG_DEBUG); in particular at
threshold LOG_NONE an info or debug call performs zero writes and leaves
the state untouched. -/
theorem C3_theorem (mpath : List Char) (lineNo : Int) (msg : String)
    (now : Nat) (st : LogState) :
    ((log_error mpath lineNo msg now st).wrote = true ↔ LOG_ERRORS ≤ st.level) ∧
    ((log_warning mpath lineNo msg now st).wrote = true ↔ LOG_WARNINGS ≤ st.level) ∧
    ((log_info mpath lineNo msg now st).wrote = true ↔ LOG_INFO ≤ st.level) ∧
    ((log_debug mpath lineNo msg now st).wrote = true ↔ LOG_DEBUG ≤ st.level) ∧
    (st.level = LOG_NONE →
      (log_info mpath lineNo msg now st).wrote = false ∧
      (log_debug mpath lineNo msg now st).wrote = false ∧
      (log_info mpath lineNo msg now st).st = st ∧
      (log_debug mpath lineNo msg now st).st = st) := by
  refine ⟨?_, ?_, ?_, ?_, ?_⟩
  · by_cases h : LOG_ERRORS ≤ st.level <;> simp [log_error, h]
  · by_cases h : LOG_WARNINGS ≤ st.level <;> simp [log_warning, h]
  · by_cases h : LOG_INFO ≤ st.level <;> simp [log_info, h]
  · by_cases h : LOG_DEBUG ≤ st.level <;> simp [log_debug, h]
  · intro h0
    have hi : ¬ LOG_INFO ≤ st.level := by
      rw [h0]; simp [LOG_INFO, LOG_NONE]
    have hd : ¬ LOG_DEBUG ≤ st.level := by
      rw [h0]; simp [LOG_DEBUG, LOG_NONE]
    exact ⟨by simp [log_info, hi], by simp [log_debug, hd],
      by simp [log_info, hi], by simp [log_debug, hd]⟩

/-- C3 (witness): at threshold LOG_NONE neither info nor debug writes. -/
theorem C3_witness :
    (log_info fnamePlain 10 "status" 99 stNone).wrote = false ∧
    (log_debug fnamePlain 10 "status" 99 stNone).wrote = false := by
  have h := (C3_theorem fnamePlain 10 "status" 99 stNone).2.2.2.2 rfl
  exact ⟨h.1, h.2.1⟩

/-! Claim C4. -/

/-- C4: log_die always terminates the process with exit status 1, for
every level and state and irrespective of the outcome of the write (which
it ignores); it writes its ABORT-tagged line to the stream iff the current
level is greater than LOG_NONE. -/
theorem C4_theorem (mpath : List Char) (lineNo : Int) (msg : String)
    (now : Nat) (st : LogState) :
    (log_die mpath lineNo msg now st).exitCode = some 1 ∧
    ((log_die mpath lineNo msg now st).wrote = true ↔ LOG_NONE < st.level) ∧
    (LOG_NONE < st.level →
      (log_die mpath lineNo msg now st).st = writeLine st
        { timestamp := now, severity := "ABORT",
          moduleName := afterLastSlash mpath, lineNo := lineNo, message := msg }) ∧
    (¬ LOG_NONE < st.level → (log_die mpath lineNo msg now st).st = st) := by
  refine ⟨?_, ?_, ?_, ?_⟩
  · by_cases h : LOG_NONE < st.level <;> simp [log_die, h]
  · by_cases h : LOG_NONE < st.level <;> simp [log_die, h]
  · intro h; simp [log_die, h]
  · intro h; simp [log_die, h]

/-- C4 (witness): at level LOG_INFO the fatal emitter exits with status 1
and its written line carries the ABORT tag. -/
theorem C4_witness :
    (log_die loggingModule 1 "boom" 0 st7).exitCode = some 1 ∧
    (log_die loggingModule 1 "boom" 0 st7).st = writeLine st7
      { timestamp := 0, severity := "ABORT",
        moduleName := afterLastSlash loggingModule, lineNo := 1,
        message := "boom" } := by
  have h := C4_theorem loggingModule 1 "boom" 0 st7
  exact ⟨h.1, h.2.2.1 (by decide)⟩

/-! Claim C5. -/

/-- C5: log_level(lvl) sets the threshold to lvl when LOG_NONE <= lvl <=
LOG_ALL and leaves the state untouched otherwise, and in every case
returns the resulting current threshold. -/
theorem C5_theorem (lvl : Int) (st : LogState) :
    (LOG_NONE ≤ lvl ∧ lvl ≤ LOG_ALL →
      (log_level lvl st).1.level = lvl ∧ (log_level lvl st).2 = lvl) ∧
    (¬ (LOG_NONE ≤ lvl ∧ lvl ≤ LOG_ALL) →
      (log_level lvl st).1 = st ∧ (log_level lvl st).2 = st.level) ∧
    (log_level lvl st).2 = (log_level lvl st).1.level := by
  refine ⟨?_, ?_, ?_⟩
  · intro h; simp [log_level, h]
  · intro h; simp [log_level, h]
  · by_cases h : LOG_NONE ≤ lvl ∧ lvl ≤ LOG_ALL <;> simp [log_level, h]

/-- C5 (witness): an in-range call sets the level; an out-of-range call
leaves the state untouched and returns the old level. -/
theorem C5_witness :
    (log_level 2 st7).1.level = 2 ∧
    (log_level 9 st7).1 = st7 ∧ (log_level 9 st7).2 = st7.level := by
  exact ⟨((C5_theorem 2 st7).1 (by decide)).1,
    ((C5_theorem 9 st7).2.1 (by decide)).1,
    ((C5_theorem 9 st7).2.1 (by decide)).2⟩

/-! Claim C6. -/

/-- C6 (counterexample): the claim says that on an early return each of
info, debug, warning and error hands a sentinel failure-style value back
to its caller.  log_info and log_debug are declared void in logging.h and
return nothing: at threshold LOG_NONE (below their required levels) their
calls carry no returned value at all. -/
theorem C6_counterexample :
    ((log_info loggingModule 3 "x" 0 stNone).ret).isSome = false ∧
    ((log_debug loggingModule 3 "x" 0 stNone).ret).isSome = false ∧
    (log_info loggingModule 3 "x" 0 stNone).wrote = false ∧
    (log_debug loggingModule 3 "x" 0 stNone).wrote = false := by
  refine ⟨?_, ?_, ?_, ?_⟩ <;> rfl

/-- C6 (amended): when the current level is below an emitter's required
severity, each of info, debug, warning and error returns immediately with
no I/O and an unchanged state; error and warning return the failure
sentinel -1 in every case (written or not) and never terminate or
propagate an error; info and debug are void and return no value. -/
theorem C6_theorem (mpath : List Char) (lineNo : Int) (msg : String)
    (now : Nat) (st : LogState) :
    (st.level < LOG_ERRORS →
      (log_error mpath lineNo msg now st).wrote = false ∧
      (log_error mpath lineNo msg now st).st = st) ∧
    (st.level < LOG_WARNINGS →
      (log_warning mpath lineNo msg now st).wrote = false ∧
      (log_warning mpath lineNo msg now st).st = st) ∧
    (st.level < LOG_INFO →
      (log_info mpath lineNo msg now st).wrote = false ∧
      (log_info mpath lineNo msg now st).st = st) ∧
    (st.level < LOG_DEBUG →
      (log_debug mpath lineNo msg now st).wrote = false ∧
      (log_debug mpath lineNo msg now st).st = st) ∧
    (log_error mpath lineNo msg now st).ret = some (-1) ∧
    (log_warning mpath lineNo msg now st).ret = some (-1) ∧
    (log_error mpath lineNo msg now st).exitCode = none ∧
    (log_warning mpath lineNo msg now st).exitCode = none ∧
    (log_info mpath lineNo msg now st).ret = none ∧
    (log_debug mpath lineNo msg now st).ret = none := by
  refine ⟨?_, ?_, ?_, ?_, ?_, ?_, ?_, ?_, ?_, ?_⟩
  · intro h
    have hn : ¬ LOG_ERRORS ≤ st.level := by omega
    simp [log_error, hn]
  · intro h
    have hn : ¬ LOG_WARNINGS ≤ st.level := by omega
    simp [log_warning, hn]
  · intro h
    have hn : ¬ LOG_INFO ≤ st.level := by omega
    simp [log_info, hn]
  · intro h
    have hn : ¬ LOG_DEBUG ≤ st.level := by omega
    simp [log_debug, hn]
  · by_cases h : LOG_ERRORS ≤ st.level <;> simp [log_error, h]
  · by_cases h : LOG_WARNINGS ≤ st.level <;> simp [log_warning, h]
  · by_cases h : LOG_ERRORS ≤ st.level <;> simp [log_error, h]
  · by_cases h : LOG_WARNINGS ≤ st.level <;> simp [log_warning, h]
  · by_cases h : LOG_INFO ≤ st.level <;> simp [log_info, h]
  · by_cases h : LOG_DEBUG ≤ st.level <;> simp [log_debug, h]

/-- C6 (witness): at threshold LOG_NONE an error call is suppressed but
still returns -1, and an info call is suppressed and returns nothing. -/
theorem C6_witness :
    (log_error loggingModule 7 "e" 1 stNone).wrote = false ∧
    (log_error loggingModule 7 "e" 1 stNone).ret = some (-1) ∧
    (log_info loggingModule 7 "e" 1 stNone).ret = none := by
  have h := C6_theorem loggingModule 7 "e" 1 stNone
  exact ⟨(h.1 (by decide)).1, h.2.2.2.2.1, h.2.2.2.2.2.2.2.2.1⟩

/-! Claim C7. -/

/-- C7: log_open invokes rotate_logs before opening iff max_files > 1 and
the filename contains the "-0." marker substring; in every other case the
numbered log files are untouched.  When rotation triggers, the numbered
files afterwards are exactly rotate_logs applied to them. -/
theorem C7_theorem {α : Type} (filename : List Char) (maxfiles : Int)
    (files : Nat → Option α) (fid : Nat) (openOk : Bool) (now : Nat)
    (st : LogState) :
    ((log_open filename maxfiles files fid openOk now st).rotated = true ↔
      (1 < maxfiles ∧ ∃ l r, filename = l ++ marker ++ r)) ∧
    (¬ (1 < maxfiles ∧ ∃ l r, filename = l ++ marker ++ r) →
      (log_open filename maxfiles files fid openOk now st).files = files) ∧
    ((1 < maxfiles ∧ ∃ l r, filename = l ++ marker ++ r) →
      (log_open filename maxfiles files fid openOk now st).files =
        rotate_logs maxfiles files) := by
  have hrot :
      (log_open filename maxfiles files fid openOk now st).rotated =
        (if 1 < maxfiles then
          match strstrSplit filename with
          | some _ => (rotate_logs maxfiles files, true)
          | none => (files, false)
        else (files, false)).2 := by
    by_cases ho : openOk <;> simp [log_open, ho]
  have hfiles :
      (log_open filename maxfiles files fid openOk now st).files =
        (if 1 < maxfiles then
          match strstrSplit filename with
          | some _ => (rotate_logs maxfiles files, true)
          | none => (files, false)
        else (files, false)).1 := by
    by_cases ho : openOk <;> simp [log_open, ho]
  by_cases hm : 1 < maxfiles
  · cases hs : strstrSplit filename with
    | some pr =>
      have hmark : ∃ l r, filename = l ++ marker ++ r := by
        rw [← strstrSplit_isSome_iff, hs]; rfl
      refine ⟨?_, ?_, ?_⟩
      · rw [hrot, if_pos hm, hs]
        exact ⟨fun _ => ⟨hm, hmark⟩, fun _ => rfl⟩
      · intro hcon; exact absurd ⟨hm, hmark⟩ hcon
      · intro _; rw [hfiles, if_pos hm, hs]
    | none =>
      have hmark : ¬ ∃ l r, filename = l ++ marker ++ r := by
        rw [← strstrSplit_isSome_iff, hs]; simp
      refine ⟨?_, ?_, ?_⟩
      · rw [hrot, if_pos hm, hs]
        constructor
        · intro h; exact absurd h (by simp)
        · rintro ⟨-, hex⟩; exact absurd hex hmark
      · intro _; rw [hfiles, if_pos hm, hs]
      · rintro ⟨-, hex⟩; exact absurd hex hmark
  · refine ⟨?_, ?_, ?_⟩
    · rw [hrot, if_neg hm]
      constructor
      · intro h; exact absurd h (by simp)
      · rintro ⟨h1, -⟩; exact absurd h1 hm
    · intro _; rw [hfiles, if_neg hm]
    · rintro ⟨h1, -⟩; exact absurd h1 hm

/-- C7 (witness): a marker filename with max_files = 3 rotates; a plain
filename leaves the numbered files untouched. -/
theorem C7_witness :
    (log_open fnameMarker 3 (fsSingle 0 5) 1 true 0 stNone).rotated = true ∧
    (log_open fnamePlain 3 (fsSingle 0 5) 1 true 0 stNone).files = fsSingle 0 5 := by
  constructor
  · exact (C7_theorem fnameMarker 3 (fsSingle 0 5) 1 true 0 stNone).1.mpr
      ⟨by decide, "log".toList, "txt".toList, by decide⟩
  · refine (C7_theorem fnamePlain 3 (fsSingle 0 5) 1 true 0 stNone).2.1 ?_
    rintro ⟨-, hex⟩
    have h1 := (strstrSplit_isSome_iff fnamePlain).mpr hex
    have h2 : (strstrSplit fnamePlain).isSome = false := by decide
    rw [h2] at h1
    exact absurd h1 (by simp)

/-! Claim C8. -/

/-- With no sink attached (closed stream), an fprintf records nothing. -/
theorem writeLine_closed (st : LogState) (entry : LogLine)
    (h : st.attached = none) : writeLine st entry = st := by
  unfold writeLine
  rw [h]

/-- Emitters called while the stream is associated with no file leave the
state unchanged: their fprintf output is lost. -/
theorem emit_closed (mpath : List Char) (lineNo : Int) (msg : String)
    (now : Nat) (st : LogState) (h : st.attached = none) :
    (log_error mpath lineNo msg now st).st = st ∧
    (log_warning mpath lineNo msg now st).st = st ∧
    (log_info mpath lineNo msg now st).st = st ∧
    (log_debug mpath lineNo msg now st).st = st := by
  refine ⟨?_, ?_, ?_, ?_⟩
  · by_cases hl : LOG_ERRORS ≤ st.level <;>
      simp [log_error, hl, writeLine_closed st _ h]
  · by_cases hl : LOG_WARNINGS ≤ st.level <;>
      simp [log_warning, hl, writeLine_closed st _ h]
  · by_cases hl : LOG_INFO ≤ st.level <;>
      simp [log_info, hl, writeLine_closed st _ h]
  · by_cases hl : LOG_DEBUG ≤ st.level <;>
      simp [log_debug, hl, writeLine_closed st _ h]

/-- C8 (counterexample): the claim says that after a failed log_open the
previously attached stream remains attached and subsequent emitter calls
still write to the previous sink.  freopen (C11 7.21.5.4) first closes the
file associated with the stream, so after the failure nothing is attached:
starting from a state attached to sink 7 at level LOG_INFO, a failed
log_open leaves no attachment, and a following log_error performs its
write (wrote = true) yet sink 7 receives nothing. -/
theorem C8_counterexample :
    st7.attached = some 7 ∧
    (log_open fnamePlain 1 emptyFS 9 false 0 st7).st.attached = none ∧
    (log_error loggingModule 5 "m" 1
      (log_open fnamePlain 1 emptyFS 9 false 0 st7).st).wrote = true ∧
    (log_error loggingModule 5 "m" 1
      (log_open fnamePlain 1 emptyFS 9 false 0 st7).st).st.sinkLines 7 = [] := by
  refine ⟨rfl, rfl, rfl, rfl⟩

/-- C8 (amended): when log_open cannot open the target file it returns the
failure value -1 and the level and all sink contents are unchanged, but
the stream ends associated with no file (freopen closes the previous
attachment before the failed open), so subsequent emitter calls record
nothing at any sink, including the previously attached one. -/
theorem C8_theorem {α : Type} (filename : List Char) (maxfiles : Int)
    (files : Nat → Option α) (fid : Nat) (now : Nat) (st : LogState) :
    (log_open filename maxfiles files fid false now st).ret = -1 ∧
    (log_open filename maxfiles files fid false now st).st.attached = none ∧
    (log_open filename maxfiles files fid false now st).st.level = st.level ∧
    (log_open filename maxfiles files fid false now st).st.sinkLines =
      st.sinkLines ∧
    (∀ (mpath : List Char) (lineNo : Int) (msg : String) (t : Nat),
      (log_error mpath lineNo msg t
        (log_open filename maxfiles files fid false now st).st).st =
        (log_open filename maxfiles files fid false now st).st ∧
      (log_info mpath lineNo msg t
        (log_open filename maxfiles files fid false now st).st).st =
        (log_open filename maxfiles files fid false now st).st) := by
  have hst :
      (log_open filename maxfiles files fid false now st).st =
        (log_warning loggingModule 54 "Cannot open log file" now
          { st with attached := none }).st := by
    simp [log_open, freopenStderr]
  have hclosed :
      (log_open filename maxfiles files fid false now st).st.attached = none ∧
      (log_open filename maxfiles files fid false now st).st.level = st.level ∧
      (log_open filename maxfiles files fid false now st).st.sinkLines =
        st.sinkLines := by
    rw [hst]
    have hmid : ({ st with attached := none } : LogState).attached = none := rfl
    have hwm := (emit_closed loggingModule 54 "Cannot open log file" now
      { st with attached := none } hmid).2.1
    rw [hwm]
    exact ⟨rfl, rfl, rfl⟩
  refine ⟨by simp [log_open], hclosed.1, hclosed.2.1, hclosed.2.2, ?_⟩
  intro mpath lineNo msg t
  have h := emit_closed mpath lineNo msg t
    (log_open filename maxfiles files fid false now st).st hclosed.1
  exact ⟨h.1, h.2.2.1⟩

/-! Claim C9. -/

/-- C9: bits2str on a list of bytes produces exactly 2 * len characters,
byte i contributing the characters at offsets 2i and 2i + 1 (high nibble
then low nibble, with no separators); every output character is a
lowercase hex digit; and on the bytes 0x00, 0xFF, 0x1A the output is the
literal string "00ff1a". -/
theorem C9_theorem (data : List Nat) (hdata : ∀ b ∈ data, b < 256) :
    (bits2str data).length = 2 * data.length ∧
    (∀ i (h : i < data.length),
      (bits2str data)[2 * i]? = some (hexDigit (data.get ⟨i, h⟩ / 16)) ∧
      (bits2str data)[2 * i + 1]? = some (hexDigit (data.get ⟨i, h⟩ % 16))) ∧
    (∀ c ∈ bits2str data, c ∈ hexAlphabet) ∧
    bits2str [0x00, 0xFF, 0x1A] = "00ff1a".toList := by
  exact ⟨bits2str_length data, bits2str_get data, bits2str_mem data hdata,
    by decide⟩

/-- C9 (witness): the theorem instantiated at the bytes 0x00, 0xFF, 0x1A. -/
theorem C9_witness :
    (bits2str [0, 255, 26]).length = 2 * ([0, 255, 26] : List Nat).length ∧
    (bits2str [0, 255, 26])[2 * 1]? =
      some (hexDigit (([0, 255, 26] : List Nat).get ⟨1, by decide⟩ / 16)) ∧
    bits2str [0x00, 0xFF, 0x1A] = "00ff1a".toList := by
  have h := C9_theorem [0, 255, 26] (by decide)
  exact ⟨h.1, (h.2.1 1 (by decide)).1, h.2.2.2⟩

/-! Claim C10. -/

/-- C10: log_close returns 0 for every state and regardless of whether
fclose succeeds (the C code ignores fclose's result); it never reports a
failure to the caller. -/
theorem C10_theorem (closeOk : Bool) (st : LogState) :
    (log_close closeOk st).2 = 0 ∧
    (log_close closeOk st).2 = (log_close (! closeOk) st).2 := by
  exact ⟨rfl, rfl⟩
